import Mathlib

set_option maxRecDepth 100000

/-!
# Verification of the tamper-evident encrypted chat log (`src/app.py`)

Shallow embedding of the hash-chained message log of the Streamlit chat
application: the `PersistentGlobalState` store, the `EncryptionHandler`
hashing/encryption wrapper, and the message-send / chain-display logic of
`chat_interface`.  Machine integers are `Nat` with explicit `% 2 ^ 32`
reductions inside the SHA-256 core; Python dicts are modelled as
`String → Option _` maps; the two `time.time()` calls of the send path are
explicit inputs.
-/

/-! ## SHA-256 (model of Python's `hashlib.sha256(data.encode()).hexdigest()`)

Bytes are `Nat` values below 256, words are `Nat` values below `2 ^ 32`.
-/

def w32 : Nat := 4294967296

def rotr32 (n x : Nat) : Nat := ((x >>> n) ||| (x <<< (32 - n))) % w32

/-- The 64 round constants of FIPS 180-4 §4.2.2 (decimal). -/
def sha256K : List Nat :=
  [1116352408, 1899447441, 3049323471, 3921009573, 961987163,
   1508970993, 2453635748, 2870763221, 3624381080, 310598401,
   607225278, 1426881987, 1925078388, 2162078206, 2614888103,
   3248222580, 3835390401, 4022224774, 264347078, 604807628,
   770255983, 1249150122, 1555081692, 1996064986, 2554220882,
   2821834349, 2952996808, 3210313671, 3336571891, 3584528711,
   113926993, 338241895, 666307205, 773529912, 1294757372,
   1396182291, 1695183700, 1986661051, 2177026350, 2456956037,
   2730485921, 2820302411, 3259730800, 3345764771, 3516065817,
   3600352804, 4094571909, 275423344, 430227734, 506948616,
   659060556, 883997877, 958139571, 1322822218, 1537002063,
   1747873779, 1955562222, 2024104815, 2227730452, 2361852424,
   2428436474, 2756734187, 3204031479, 3329325298]

/-- The initial hash state of FIPS 180-4 §5.3.3 (decimal). -/
def sha256H0 : List Nat :=
  [1779033703, 3144134277, 1013904242, 2773480762, 1359893119,
   2600822924, 528734635, 1541459225]

/-- One SHA-256 compression round applied to a 64-byte block. -/
def sha256Compress (hs : List Nat) (block : List Nat) : List Nat :=
  let w16 := (List.range 16).map fun i =>
    ((block.drop (4 * i)).take 4).foldl (fun a b => a * 256 + b) 0
  let w := (List.range 48).foldl (fun w j =>
    let i := j + 16
    let x15 := w.getD (i - 15) 0
    let x2 := w.getD (i - 2) 0
    let s0 := (rotr32 7 x15) ^^^ (rotr32 18 x15) ^^^ (x15 >>> 3)
    let s1 := (rotr32 17 x2) ^^^ (rotr32 19 x2) ^^^ (x2 >>> 10)
    w ++ [(w.getD (i - 16) 0 + s0 + w.getD (i - 7) 0 + s1) % w32]) w16
  match hs with
  | [h0, h1, h2, h3, h4, h5, h6, h7] =>
    let final := (List.range 64).foldl
      (fun (st : Nat × Nat × Nat × Nat × Nat × Nat × Nat × Nat) t =>
        match st with
        | (a, b, c, d, e, f, g, h) =>
          let s1 := (rotr32 6 e) ^^^ (rotr32 11 e) ^^^ (rotr32 25 e)
          let ch := (e &&& f) ^^^ ((e ^^^ 4294967295) &&& g)
          let t1 := (h + s1 + ch + sha256K.getD t 0 + w.getD t 0) % w32
          let s0 := (rotr32 2 a) ^^^ (rotr32 13 a) ^^^ (rotr32 22 a)
          let maj := (a &&& b) ^^^ (a &&& c) ^^^ (b &&& c)
          let t2 := (s0 + maj) % w32
          ((t1 + t2) % w32, a, b, c, (d + t1) % w32, e, f, g))
      (h0, h1, h2, h3, h4, h5, h6, h7)
    match final with
    | (a, b, c, d, e, f, g, h) =>
      [(h0 + a) % w32, (h1 + b) % w32, (h2 + c) % w32, (h3 + d) % w32,
       (h4 + e) % w32, (h5 + f) % w32, (h6 + g) % w32, (h7 + h) % w32]
  | _ => hs

/-- Merkle–Damgård padding: `0x80`, zeros to 56 mod 64, 8-byte big-endian bit length. -/
def sha256PadBytes (msg : List Nat) : List Nat :=
  let len := msg.length
  msg ++ [128] ++ List.replicate ((119 - len % 64) % 64) 0 ++
    ([56, 48, 40, 32, 24, 16, 8, 0].map fun i => ((len * 8) >>> i) % 256)

/-- Split a byte list into 64-byte chunks (fuel-indexed structural recursion). -/
def chunks64Aux : Nat → List Nat → List (List Nat)
  | 0, _ => []
  | _, [] => []
  | fuel + 1, l => l.take 64 :: chunks64Aux fuel (l.drop 64)

def sha256Words (msg : List Nat) : List Nat :=
  (chunks64Aux (sha256PadBytes msg).length (sha256PadBytes msg)).foldl sha256Compress sha256H0

def hexDigitChar (n : Nat) : Char :=
  "0123456789abcdef".data.getD n '0'

def word2hex (x : Nat) : List Char :=
  [28, 24, 20, 16, 12, 8, 4, 0].map fun i => hexDigitChar ((x >>> i) % 16)

/-- SHA-256 hex digest of a byte list. -/
def sha256hexBytes (msg : List Nat) : String :=
  String.mk ((sha256Words msg).foldr (fun wd acc => word2hex wd ++ acc) [])

/-- UTF-8 encoding of a character, as bytes (model of Python `str.encode()`). -/
def utf8EncodeCharB (c : Char) : List Nat :=
  let n := c.toNat
  if n < 128 then [n]
  else if n < 2048 then [192 + n / 64, 128 + n % 64]
  else if n < 65536 then [224 + n / 4096, 128 + (n / 64) % 64, 128 + n % 64]
  else [240 + n / 262144, 128 + (n / 4096) % 64, 128 + (n / 64) % 64, 128 + n % 64]

def utf8Bytes (s : String) : List Nat :=
  s.data.foldr (fun c acc => utf8EncodeCharB c ++ acc) []

/-- `hashlib.sha256(s.encode()).hexdigest()` on a Python `str`. -/
def sha256hex (s : String) : String :=
  sha256hexBytes (utf8Bytes s)

/-! ## Fernet cipher model

`cryptography.fernet.Fernet` is an external library, not part of this
repository's sources.
-/

/-- Modelled from the spec: the spec describes the cipher (`Fernet` in the
source, missing from `src/`) as authenticated symmetric encryption whose
decryption inverts encryption under the same key and fails under a wrong
key or corrupted token.  We model it as an ideal deterministic cipher over
strings: the token records the key as a run of marker characters followed
by a separator and the plaintext, and decryption checks and strips that
key run. -/
def fernetEncryptL (key : Nat) (pt : List Char) : List Char :=
  match key with
  | 0 => ':' :: pt
  | k + 1 => 'k' :: fernetEncryptL k pt

/-- Modelled from the spec: decryption half of the ideal cipher (see
`fernetEncryptL`); returns `none` when the token's key run does not match
the supplied key. -/
def fernetDecryptL (key : Nat) (ct : List Char) : Option (List Char) :=
  match key, ct with
  | 0, ':' :: rest => some rest
  | k + 1, 'k' :: rest => fernetDecryptL k rest
  | _, _ => none

def Fernet.encrypt (key : Nat) (pt : String) : String :=
  String.mk (fernetEncryptL key pt.data)

def Fernet.decrypt (key : Nat) (ct : String) : Option String :=
  (fernetDecryptL key ct.data).map String.mk

/-! ## Data model (`msg_data` dict of `chat_interface`, room dicts of
`PersistentGlobalState`) -/

structure Message where
  encrypted_message : String
  timestamp : String
  hash : String
  previous_hash : String
  user_id : String
  message_id : String
  reactions : List String
deriving DecidableEq

/-- Default message used for out-of-range `getD` lookups (Python would raise). -/
def mdef : Message := ⟨"", "", "", "", "", "", []⟩

structure Room where
  messages : List Message
  created_at : Nat
  name : String
  room_id : String
  message_count : Nat
deriving DecidableEq

/-- The `PersistentGlobalState` singleton's mutable fields.  Python dicts are
maps `String → Option _`; the Fernet key is the `Nat` key of the cipher
model. -/
structure GlobalState where
  ROOMS : String → Option Room
  ENCRYPTION_KEY : Nat
  ACTIVE_USERS : String → Option (List (String × Nat))
  CHANNEL_THEMES : String → Option String

def setRoom (s : GlobalState) (id : String) (r : Room) : GlobalState :=
  { s with ROOMS := fun k => if k = id then some r else s.ROOMS k }

/-- `PersistentGlobalState.get_room` (`self.ROOMS.get(room_id, {})`, an empty
dict being falsy). -/
def GlobalState.get_room (s : GlobalState) (room_id : String) : Option Room :=
  s.ROOMS room_id

/-- `PersistentGlobalState.add_message`: returns `False` when the room is
missing, else appends `message_data` to the room's list.  (The defensive
`"messages" not in ...` branch cannot fire: every room record carries a
`messages` field.) -/
def GlobalState.add_message (s : GlobalState) (room_id : String) (msg : Message) :
    Bool × GlobalState :=
  match s.ROOMS room_id with
  | none => (false, s)
  | some room => (true, setRoom s room_id { room with messages := room.messages ++ [msg] })

/-- `PersistentGlobalState.create_room`. -/
def GlobalState.create_room (s : GlobalState) (room_id room_name : String) (now : Nat) :
    Bool × GlobalState :=
  match s.ROOMS room_id with
  | none =>
    (true,
      { s with
        ROOMS := fun k =>
          if k = room_id then
            some { messages := [], created_at := now, name := room_name,
                   room_id := room_id, message_count := 0 }
          else s.ROOMS k,
        ACTIVE_USERS := fun k => if k = room_id then some [] else s.ACTIVE_USERS k,
        CHANNEL_THEMES := fun k =>
          if k = room_id then some "Cinematic Dark" else s.CHANNEL_THEMES k })
  | some _ => (false, s)

/-- `PersistentGlobalState.clear_room_messages`. -/
def GlobalState.clear_room_messages (s : GlobalState) (room_id : String) :
    Bool × GlobalState :=
  match s.ROOMS room_id with
  | none => (false, s)
  | some room => (true, setRoom s room_id { room with messages := [] })

/-! ## EncryptionHandler -/

/-- `EncryptionHandler.__init__`: an explicit key if one is passed (truthy),
else the store-wide `ENCRYPTION_KEY`. -/
def EncryptionHandler.init (s : GlobalState) (key : Option Nat) : Nat :=
  match key with
  | some k => k
  | none => s.ENCRYPTION_KEY

def EncryptionHandler.encrypt (key : Nat) (plaintext : String) : String :=
  Fernet.encrypt key plaintext

def EncryptionHandler.decrypt (key : Nat) (ciphertext : String) : Option String :=
  Fernet.decrypt key ciphertext

def EncryptionHandler.calculate_hash (data : String) : String :=
  sha256hex data

/-! ## The send path of `chat_interface` (lines 1128–1165) -/

def genesisHash : String := String.mk (List.replicate 64 '0')

/-- `room_data.get("messages", [])` for the current room. -/
def roomMessages (s : GlobalState) (room_id : String) : List Message :=
  match s.ROOMS room_id with
  | none => []
  | some room => room.messages

/-- The ambient inputs of one send: the author, the text, the two separate
`time.time()` readings (line 1144 hashes one, line 1150 stores another), and
the fresh `uuid4` message id.  Timestamps are carried as their decimal
renderings, which is the form entering the f-string being hashed. -/
structure SendInputs where
  user_id : String
  plaintext : String
  tHash : String
  tStore : String
  message_id : String
deriving DecidableEq

/-- The `msg_data` record built by the send handler: previous hash from the
room's current tail (genesis zeros when empty), ciphertext from
`EncryptionHandler()` (store key), hash over
`f"{encrypted_msg}{previous_hash}{time.time()}"`. -/
def buildMessage (s : GlobalState) (room_id : String) (inp : SendInputs) : Message :=
  let messages := roomMessages s room_id
  let previous_hash :=
    match messages.getLast? with
    | none => genesisHash
    | some m => m.hash
  let encryptor := EncryptionHandler.init s none
  let encrypted_msg := EncryptionHandler.encrypt encryptor inp.plaintext
  let data_to_hash := encrypted_msg ++ previous_hash ++ inp.tHash
  let current_hash := EncryptionHandler.calculate_hash data_to_hash
  { encrypted_message := encrypted_msg
    timestamp := inp.tStore
    hash := current_hash
    previous_hash := previous_hash
    user_id := inp.user_id
    message_id := inp.message_id
    reactions := [] }

/-- One whole send: build `msg_data` from the current room snapshot, then
`global_state.add_message`. -/
def sendMessage (s : GlobalState) (room_id : String) (inp : SendInputs) :
    Bool × GlobalState :=
  s.add_message room_id (buildMessage s room_id inp)

/-! ## Display-time chain verification (`chat_interface` lines 1071–1083) -/

/-- The per-message `chain_valid` flags of the display loop: the loop runs
over `messages[-50:]`, and for window index `i` with `i > 0 and
i < len(messages)` compares `msg["previous_hash"]` against
`messages[max(0, i-1)]["hash"]` — an index into the full list, not the
window. -/
def chainFlags (messages : List Message) : List Bool :=
  (List.range (messages.drop (messages.length - 50)).length).map fun i =>
    if 0 < i ∧ i < messages.length then
      ((messages.drop (messages.length - 50)).getD i mdef).previous_hash ==
        (messages.getD (i - 1) mdef).hash
    else true

/-- Follows the spec's words for `ComputeHash` (field order ciphertext,
timestamp, prevHash, senderId), for comparison with the code's hashing. -/
def specComputeHash (ciphertext timestamp prevHash senderId : String) : String :=
  sha256hex (ciphertext ++ timestamp ++ prevHash ++ senderId)

/-- Follows the spec's words for `VerifyChain`, for comparison with the
code's `chainFlags`: single pass, every `i > 0` must link to its
predecessor's hash, every index (0 included) must have a recomputable
hash, result `(true, -1)` or `(false, first bad index)`. -/
def specVerifyChainAux (prev : Option Message) (i : Nat) : List Message → Bool × Int
  | [] => (true, -1)
  | m :: rest =>
    let linkOK :=
      match prev with
      | none => true
      | some p => m.previous_hash == p.hash
    let hashOK :=
      specComputeHash m.encrypted_message m.timestamp m.previous_hash m.user_id == m.hash
    if linkOK && hashOK then specVerifyChainAux (some m) (i + 1) rest
    else (false, Int.ofNat i)

def specVerifyChain (messages : List Message) : Bool × Int :=
  specVerifyChainAux none 0 messages

/-! ## Reachable store states -/

/-- The chain-integrity predicate: each message's `previous_hash` equals its
predecessor's `hash`. -/
def chainOKb : List Message → Bool
  | [] => true
  | [_] => true
  | a :: b :: t => (b.previous_hash == a.hash) && chainOKb (b :: t)

/-- The store operations a caller can drive: room creation, one whole
message send (read tail, hash, append), and an explicit clear. -/
inductive Op where
  | create (room_id room_name : String) (now : Nat)
  | post (room_id : String) (inp : SendInputs)
  | clear (room_id : String)

def step (s : GlobalState) : Op → GlobalState
  | .create id name now => (s.create_room id name now).2
  | .post id inp => (sendMessage s id inp).2
  | .clear id => (s.clear_room_messages id).2

/-- A fresh store: no rooms, the Fernet key generated at first load. -/
def initState (key : Nat) : GlobalState :=
  { ROOMS := fun _ => none, ENCRYPTION_KEY := key,
    ACTIVE_USERS := fun _ => none, CHANNEL_THEMES := fun _ => none }

def run (key : Nat) (ops : List Op) : GlobalState :=
  ops.foldl step (initState key)

/-- Chain integrity across the whole store: every registered room's message
list is correctly linked. -/
def RoomsOK (s : GlobalState) : Prop :=
  ∀ id r, s.ROOMS id = some r → chainOKb r.messages = true

/-! ## Room id generation (`generate_room_id`) -/

/-- `re.sub(r'[^a-zA-Z0-9]', '', name)[:4].upper()`. -/
def clean_name (name : String) : String :=
  String.mk (((name.data.filter Char.isAlphanum).take 4).map Char.toUpper)

/-- `uuid.uuid4().hex[:4].upper()`, with the uuid's hex string as the random
input. -/
def unique_part (uuid_hex : String) : String :=
  String.mk ((uuid_hex.data.take 4).map Char.toUpper)

/-- `generate_room_id`: name-derived leading part, a hyphen, four uuid hex
characters. -/
def generate_room_id (name : String) (uuid_hex : String) : String :=
  clean_name name ++ "-" ++ unique_part uuid_hex

/-! ## Lock discipline of `PersistentGlobalState`

Every method body is `with self._lock: ...` on the single class-level
`threading.Lock`, which is not reentrant.  Each method's sequence of lock
acquisitions/releases, nested method calls inlined, is recorded as a
trace. -/

inductive LockEvent where
  | acq
  | rel
deriving DecidableEq

def get_room_lockTrace : List LockEvent := [.acq, .rel]

def add_message_lockTrace : List LockEvent := [.acq, .rel]

def create_room_lockTrace : List LockEvent := [.acq, .rel]

def clear_room_messages_lockTrace : List LockEvent := [.acq, .rel]

def get_active_users_lockTrace : List LockEvent := [.acq, .rel]

/-- `should_cleanup_messages` takes the lock and, still holding it, calls
`self.get_active_users(room_id)`, which takes the same lock again. -/
def should_cleanup_messages_lockTrace : List LockEvent :=
  [.acq] ++ get_active_users_lockTrace ++ [.rel]

/-- A thread self-deadlocks iff it attempts to acquire the non-reentrant
lock while already holding it. -/
def selfDeadlocks : Nat → List LockEvent → Bool
  | _, [] => false
  | held, .acq :: rest => if 0 < held then true else selfDeadlocks (held + 1) rest
  | held, .rel :: rest => selfDeadlocks (held - 1) rest

/-! ## Concrete example data -/

def exInp : SendInputs := ⟨"u2", "yo", "101.25", "101.26", "m2"⟩

def exInpEq : SendInputs := ⟨"u2", "yo", "101.25", "101.25", "m2"⟩

def exMsg0 : Message := ⟨"kkk:hi", "100.5", "aa", genesisHash, "u1", "m1", []⟩

def exRoom1 : Room := ⟨[exMsg0], 5, "general", "R1", 0⟩

def exState1 : GlobalState := setRoom (initState 3) "R1" exRoom1

def staleMsg : Message := ⟨"kkk:yo", "101.5", "bb", "ff", "u2", "m2", []⟩

def exS2 : GlobalState := run 7 [.create "ROOM-A" "alpha" 0, .create "ROOM-B" "beta" 1]

def exBad0 : Message := ⟨"kkk:hi", "100.5", "deadbeef", genesisHash, "u1", "m1", []⟩

def exBad1 : Message := ⟨"kkk:yo", "101.5", "cafebabe", "deadbeef", "u2", "m2", []⟩

/-! ## Theorems -/

/-- FIPS 180-4 test vector for the empty message. -/
theorem sha256hex_empty_vector :
    sha256hex "" = "e3b0c44298fc1c149afbf4c8996fb92427ae41e4649b934ca495991b7852b855" := by decide

/-- FIPS 180-4 test vector for "abc". -/
theorem sha256hex_abc_vector :
    sha256hex "abc" = "ba7816bf8f01cfea414140de5dae2223b00361a396177a9cb410ff61f20015ad" := by decide

theorem fernetDecryptL_encryptL (key : Nat) (pt : List Char) :
    fernetDecryptL key (fernetEncryptL key pt) = some pt := by
  induction key with
  | zero => rfl
  | succ k ih => simpa [fernetEncryptL, fernetDecryptL] using ih

/-- C7: decrypting under key K the ciphertext produced by encrypting plaintext
P under K yields exactly P (`EncryptionHandler.encrypt` / `.decrypt`, the
cipher modelled from the spec as ideal authenticated encryption). -/
theorem encrypt_decrypt_roundtrip (key : Nat) (P : String) :
    EncryptionHandler.decrypt key (EncryptionHandler.encrypt key P) = some P := by
  simp [EncryptionHandler.decrypt, EncryptionHandler.encrypt, Fernet.decrypt, Fernet.encrypt,
    fernetDecryptL_encryptL]

/-- C9: `should_cleanup_messages` acquires the class-level non-reentrant lock
and then calls `get_active_users`, which acquires it again — the thread
self-deadlocks; the other store operations acquire the lock only once and
run to completion. -/
theorem should_cleanup_messages_self_deadlock :
    selfDeadlocks 0 should_cleanup_messages_lockTrace = true ∧
    selfDeadlocks 0 add_message_lockTrace = false ∧
    selfDeadlocks 0 create_room_lockTrace = false ∧
    selfDeadlocks 0 get_room_lockTrace = false ∧
    selfDeadlocks 0 get_active_users_lockTrace = false ∧
    selfDeadlocks 0 clear_room_messages_lockTrace = false := by decide

/-- C10: creating a room whose identifier is already registered returns
`False` and leaves the whole store — in particular the existing room's
entry — unchanged. -/
theorem create_room_existing_fails (s : GlobalState) (id room_name : String) (now : Nat)
    (r : Room) (h : s.ROOMS id = some r) :
    s.create_room id room_name now = (false, s) := by
  simp [GlobalState.create_room, h]

/-- C10 witness: re-creating the already-registered room `R1` fails and
changes nothing. -/
theorem create_room_existing_fails_witness :
    exState1.create_room "R1" "other" 9 = (false, exState1) :=
  create_room_existing_fails exState1 "R1" "other" 9 exRoom1 rfl

/-- C3 counterexample: `add_message` accepts a message whose `previous_hash`
(`"ff"`) differs from the current last message's hash (`"aa"`), returning
`True` and appending it — no `ChainMismatch` rejection exists. -/
theorem add_message_accepts_stale_prevHash :
    staleMsg.previous_hash ≠ exMsg0.hash ∧
    (exState1.add_message "R1" staleMsg).1 = true ∧
    roomMessages (exState1.add_message "R1" staleMsg).2 "R1" = [exMsg0, staleMsg] := by
  decide

/-- C3 amended: `add_message` fails (returns `False`, state unchanged) exactly
when the room is missing; when the room exists it appends unconditionally and
returns `True`, performing no `prevHash` validation whatsoever. -/
theorem add_message_only_checks_presence (s : GlobalState) (id : String) (msg : Message) :
    (s.ROOMS id = none → s.add_message id msg = (false, s)) ∧
    ∀ r, s.ROOMS id = some r →
      (s.add_message id msg).1 = true ∧
      roomMessages (s.add_message id msg).2 id = r.messages ++ [msg] := by
  constructor
  · intro h
    simp [GlobalState.add_message, h]
  · intro r h
    simp [GlobalState.add_message, h, roomMessages, setRoom]

/-- C3 amended witness: a missing room is rejected with state unchanged; an
existing room accepts the (stale) message unconditionally. -/
theorem add_message_only_checks_presence_witness :
    (initState 3).add_message "R1" staleMsg = (false, initState 3) ∧
    ((exState1.add_message "R1" staleMsg).1 = true ∧
      roomMessages (exState1.add_message "R1" staleMsg).2 "R1" =
        exRoom1.messages ++ [staleMsg]) :=
  ⟨(add_message_only_checks_presence (initState 3) "R1" staleMsg).1 rfl,
   (add_message_only_checks_presence exState1 "R1" staleMsg).2 exRoom1 rfl⟩

/-- C6: whenever a room's message list is empty — in particular right after
`create_room` and right after a successful `clear_room_messages` — the next
message built by the send path carries the genesis `previous_hash` of 64
zero characters. -/
theorem next_prevHash_genesis (s : GlobalState) (id room_name : String) (now : Nat)
    (inp : SendInputs) :
    (roomMessages s id = [] → (buildMessage s id inp).previous_hash = genesisHash) ∧
    ((s.create_room id room_name now).1 = true →
      (buildMessage (s.create_room id room_name now).2 id inp).previous_hash = genesisHash) ∧
    ((s.clear_room_messages id).1 = true →
      (buildMessage (s.clear_room_messages id).2 id inp).previous_hash = genesisHash) := by
  have base : ∀ t : GlobalState, roomMessages t id = [] →
      (buildMessage t id inp).previous_hash = genesisHash := by
    intro t h
    simp [buildMessage, h]
  refine ⟨base s, ?_, ?_⟩
  · intro h
    cases hs : s.ROOMS id with
    | some r => simp [GlobalState.create_room, hs] at h
    | none =>
      apply base
      simp [GlobalState.create_room, hs, roomMessages]
  · intro h
    cases hs : s.ROOMS id with
    | none => simp [GlobalState.clear_room_messages, hs] at h
    | some r =>
      apply base
      simp [GlobalState.clear_room_messages, hs, roomMessages, setRoom]

/-- C6 witness: after clearing the one-message room `R1`, and in the freshly
created room `R2`, the next built message links to the genesis constant. -/
theorem next_prevHash_genesis_witness :
    (buildMessage (exState1.clear_room_messages "R1").2 "R1" exInp).previous_hash =
      genesisHash ∧
    (buildMessage ((initState 3).create_room "R2" "n" 0).2 "R2" exInp).previous_hash =
      genesisHash :=
  ⟨(next_prevHash_genesis exState1 "R1" "n" 0 exInp).2.2 (by decide),
   (next_prevHash_genesis (initState 3) "R2" "n" 0 exInp).2.1 (by decide)⟩

/-- C5 counterexample: two distinct rooms of one run are both served by the
same store-wide Fernet key (7): a message posted in either room is encrypted
under the identical key, and rooms carry no key of their own. -/
theorem rooms_share_encryption_key :
    ("ROOM-A" : String) ≠ "ROOM-B" ∧
    (exS2.get_room "ROOM-A").isSome = true ∧
    (exS2.get_room "ROOM-B").isSome = true ∧
    (buildMessage exS2 "ROOM-A" exInp).encrypted_message =
      Fernet.encrypt 7 exInp.plaintext ∧
    (buildMessage exS2 "ROOM-B" exInp).encrypted_message =
      Fernet.encrypt 7 exInp.plaintext := by
  decide

/-- C5 amended: the store holds a single symmetric key, fixed at
initialization and never changed by any operation sequence, and every
message in every room is encrypted under that one shared key (rooms have no
per-room key). -/
theorem encryption_key_global_and_constant (key : Nat) (ops : List Op) (room_id : String)
    (inp : SendInputs) :
    (run key ops).ENCRYPTION_KEY = key ∧
    (buildMessage (run key ops) room_id inp).encrypted_message =
      EncryptionHandler.encrypt key inp.plaintext := by
  have hstep : ∀ (t : GlobalState) (op : Op),
      (step t op).ENCRYPTION_KEY = t.ENCRYPTION_KEY := by
    intro t op
    cases op with
    | create rid rname now => cases hs : t.ROOMS rid <;>
        simp [step, GlobalState.create_room, hs]
    | post rid inp2 => cases hs : t.ROOMS rid <;>
        simp [step, sendMessage, GlobalState.add_message, hs, setRoom]
    | clear rid => cases hs : t.ROOMS rid <;>
        simp [step, GlobalState.clear_room_messages, hs, setRoom]
  have hrun : ∀ (l : List Op) (t : GlobalState),
      (l.foldl step t).ENCRYPTION_KEY = t.ENCRYPTION_KEY := by
    intro l
    induction l with
    | nil => intro t; rfl
    | cons op rest ih => intro t; rw [List.foldl_cons, ih, hstep]
  have hk : (run key ops).ENCRYPTION_KEY = key := hrun ops (initState key)
  exact ⟨hk, by simp [buildMessage, EncryptionHandler.init, EncryptionHandler.encrypt, hk]⟩

/-- C8 counterexample: the identifier's leading part is the uppercased first
four alphanumeric characters of the room name — a function of the name — so
generated identifiers do reveal the name. -/
theorem room_id_reveals_name :
    generate_room_id "Alpha" "ab12cdef" = "ALPH-AB12" ∧
    generate_room_id "Bravo" "ab12cdef" = "BRAV-AB12" ∧
    ("Alpha" : String) ≠ "Bravo" := by decide

/-- C8 amended: a generated identifier is the name-derived `clean_name`
followed by a hyphen and an uppercased random part; the random contribution
is limited to the first four uuid hex characters (16 bits of entropy, far
below 64). -/
theorem generate_room_id_structure (name uuid_hex : String) :
    (generate_room_id name uuid_hex).data.take (clean_name name).data.length =
      (clean_name name).data ∧
    generate_room_id name uuid_hex =
      generate_room_id name (String.mk (uuid_hex.data.take 4)) := by
  constructor
  · rw [generate_room_id, String.data_append, String.data_append, List.append_assoc]
    exact List.take_left _ _
  · simp [generate_room_id, unique_part, List.take_take]

/-- C1 amended: the stored `hash` is the SHA-256 hex digest of the
concatenation ciphertext, previous hash, then the hash-time `time.time()`
reading — `senderId` is not part of the input, the field order differs from
the claim, and the hashed timestamp is a separate clock reading from the
stored `timestamp` field. -/
theorem message_hash_formula (s : GlobalState) (room_id : String) (inp : SendInputs) :
    (buildMessage s room_id inp).hash =
      sha256hex ((buildMessage s room_id inp).encrypted_message ++
        (buildMessage s room_id inp).previous_hash ++ inp.tHash) := rfl

/-- C1 counterexample: for a concrete send, recomputing SHA-256 over the
stored fields in the claimed order (ciphertext, timestamp, prevHash,
senderId) does not reproduce the stored hash — not even when the two
`time.time()` readings happen to coincide (`exInpEq`). -/
theorem message_hash_not_spec_recomputable :
    (specComputeHash (buildMessage exS2 "ROOM-A" exInp).encrypted_message
        (buildMessage exS2 "ROOM-A" exInp).timestamp
        (buildMessage exS2 "ROOM-A" exInp).previous_hash
        (buildMessage exS2 "ROOM-A" exInp).user_id ≠
      (buildMessage exS2 "ROOM-A" exInp).hash) ∧
    (specComputeHash (buildMessage exS2 "ROOM-A" exInpEq).encrypted_message
        (buildMessage exS2 "ROOM-A" exInpEq).timestamp
        (buildMessage exS2 "ROOM-A" exInpEq).previous_hash
        (buildMessage exS2 "ROOM-A" exInpEq).user_id ≠
      (buildMessage exS2 "ROOM-A" exInpEq).hash) := by
  decide

/-- C2 counterexample: on a two-message list whose stored hashes are garbage
but whose linkage is consistent, the display loop's flags are all `true`
(it never recomputes hashes and returns no aggregate verdict), while the
spec's `VerifyChain` rejects at index 0. -/
theorem chainFlags_ignore_hash_recomputation :
    chainFlags [exBad0, exBad1] = [true, true] ∧
    specVerifyChain [exBad0, exBad1] = (false, 0) := by
  decide

theorem chainOKb_eq_chain' (l : List Message) :
    chainOKb l = true ↔ List.Chain' (fun a b => b.previous_hash = a.hash) l := by
  induction l with
  | nil => simp [chainOKb]
  | cons a t ih =>
    cases t with
    | nil => simp [chainOKb]
    | cons b t2 =>
      simp only [chainOKb, Bool.and_eq_true, beq_iff_eq, List.chain'_cons] at ih ⊢
      rw [ih]

/-- C2 amended: for rooms of at most 50 messages (so the display window is
the whole list), the display loop's per-message flags are all `true` exactly
when adjacent `previous_hash` linkage holds — hash recomputation plays no
part, and no `(bool, firstBadIndex)` result is produced. -/
theorem chainFlags_linkage_only (messages : List Message) (h : messages.length ≤ 50) :
    ((chainFlags messages).all (fun b => b) = true ↔ chainOKb messages = true) := by
  rw [chainOKb_eq_chain', List.chain'_iff_get]
  simp only [chainFlags, Nat.sub_eq_zero_of_le h, List.drop_zero, List.all_eq_true,
    List.get_eq_getElem]
  constructor
  · intro hall i hi
    have h1 : i + 1 < messages.length := by omega
    have hf := hall _ (List.mem_map_of_mem _ (List.mem_range.2 h1))
    simp only [if_pos (And.intro (Nat.succ_pos i) h1), Nat.add_sub_cancel,
      List.getD_eq_getElem _ _ h1,
      List.getD_eq_getElem _ _ (Nat.lt_of_succ_lt h1), beq_iff_eq] at hf
    exact hf
  · intro hchain x hx
    obtain ⟨i, hir, rfl⟩ := List.mem_map.1 hx
    have hi : i < messages.length := List.mem_range.1 hir
    by_cases hc : 0 < i ∧ i < messages.length
    · have h2 : i - 1 < messages.length - 1 := by omega
      have hlink := hchain (i - 1) h2
      simp only [Nat.sub_add_cancel hc.1] at hlink
      simp only [if_pos hc, List.getD_eq_getElem _ _ hc.2,
        List.getD_eq_getElem _ _ (Nat.lt_of_le_of_lt (Nat.sub_le i 1) hi), beq_iff_eq]
      exact hlink
    · simp only [if_neg hc]

/-- C2 amended witness: on the concrete two-message garbage-hash list the
flags are all `true` exactly because the linkage holds. -/
theorem chainFlags_linkage_only_witness :
    ((chainFlags [exBad0, exBad1]).all (fun b => b) = true ↔
      chainOKb [exBad0, exBad1] = true) :=
  chainFlags_linkage_only [exBad0, exBad1] (by decide)

theorem chainOKb_append (msgs : List Message) (m : Message)
    (h : chainOKb msgs = true)
    (hlink : ∀ l, msgs.getLast? = some l → m.previous_hash = l.hash) :
    chainOKb (msgs ++ [m]) = true := by
  rw [chainOKb_eq_chain'] at h ⊢
  rw [List.chain'_append]
  refine ⟨h, List.chain'_singleton m, ?_⟩
  intro x hx y hy
  simp only [List.head?_cons, Option.mem_def, Option.some.injEq] at hy
  subst hy
  exact hlink x (Option.mem_def.1 hx)

theorem step_RoomsOK (s : GlobalState) (op : Op) (h : RoomsOK s) : RoomsOK (step s op) := by
  cases op with
  | create rid rname now =>
    intro id r hr
    simp only [step, GlobalState.create_room] at hr
    cases hs : s.ROOMS rid with
    | some r0 =>
      simp only [hs] at hr
      exact h id r hr
    | none =>
      simp only [hs] at hr
      by_cases hid : id = rid
      · subst hid
        rw [if_pos rfl] at hr
        injection hr with hr
        subst hr
        rfl
      · simp only [if_neg hid] at hr
        exact h id r hr
  | clear rid =>
    intro id r hr
    simp only [step, GlobalState.clear_room_messages] at hr
    cases hs : s.ROOMS rid with
    | none =>
      simp only [hs] at hr
      exact h id r hr
    | some room =>
      simp only [hs, setRoom] at hr
      by_cases hid : id = rid
      · subst hid
        rw [if_pos rfl] at hr
        injection hr with hr
        subst hr
        rfl
      · simp only [if_neg hid] at hr
        exact h id r hr
  | post rid inp =>
    intro id r hr
    simp only [step, sendMessage, GlobalState.add_message] at hr
    cases hs : s.ROOMS rid with
    | none =>
      simp only [hs] at hr
      exact h id r hr
    | some room =>
      simp only [hs, setRoom] at hr
      by_cases hid : id = rid
      · subst hid
        rw [if_pos rfl] at hr
        injection hr with hr
        subst hr
        apply chainOKb_append
        · exact h id room hs
        · intro l hl
          simp [buildMessage, roomMessages, hs, hl]
      · simp only [if_neg hid] at hr
        exact h id r hr

theorem foldl_RoomsOK (ops : List Op) (s : GlobalState) (h : RoomsOK s) :
    RoomsOK (ops.foldl step s) := by
  induction ops generalizing s with
  | nil => exact h
  | cons op rest ih => exact ih _ (step_RoomsOK s op h)

/-- C4: chain integrity is an invariant of every reachable store state —
after any sequence of create, post (read tail, hash, append) and clear
operations from a fresh store, every room's message list has each message's
`previous_hash` equal to its predecessor's `hash`. -/
theorem run_chain_integrity (key : Nat) (ops : List Op) (id : String) (r : Room)
    (h : (run key ops).ROOMS id = some r) : chainOKb r.messages = true := by
  refine foldl_RoomsOK ops (initState key) ?_ id r h
  intro id2 r2 hr2
  simp [initState] at hr2

/-- C4 witness: the store reached by creating room `R` registers it with a
correctly linked (empty) chain. -/
theorem run_chain_integrity_witness :
    chainOKb (Room.mk [] 0 "n" "R" 0).messages = true :=
  run_chain_integrity 0 [.create "R" "n" 0] "R" (Room.mk [] 0 "n" "R" 0) (by decide)
